import Mathlib

/-!
Verification development for the extratorDeAudio repository (Go).

The Go sources under `internal/handlers/handlers.go`, `internal/extractor/extractor.go`
and `internal/models/models.go` are shallowly embedded below:

* machine strings are modelled as Lean `String` / `List Char`, with the Go
  standard-library helpers (`strings.TrimSpace`, `strings.ToLower`,
  `filepath.Base`, `strings.Split`) re-implemented character by character.
  `strings.ToLower` and `strings.TrimSpace` are modelled on their ASCII /
  Latin-1 fragment (Go additionally folds exotic Unicode case pairs and
  Unicode spaces outside that fragment; no claim depends on those);
* `time.Time` values are modelled as `Int` nanosecond counts, so Go
  `t.Before(u)` is `t < u` and `now.Add(-ttl)` is `now - ttl`;
* ffmpeg float arithmetic (`out_time_ms` over duration) is modelled with
  exact rationals `ℚ`; Go `int(x)` truncation on the non-negative clamped
  ratio coincides with the floor `⌊x⌋`;
* stateful handler code becomes explicit state passing: each HTTP handler
  is a pure function from the addressed job (plus the current time) to a
  response value and the updated job.
-/

/-! ## Character-level models of Go string helpers -/

/-- Model of Go `unicode.IsSpace` on the Latin-1 range: space, tab, newline,
vertical tab, form feed, carriage return, NEL (U+0085), NBSP (U+00A0). -/
def isGoSpace (c : Char) : Bool :=
  c.toNat = 32 || c.toNat = 9 || c.toNat = 10 || c.toNat = 11 ||
  c.toNat = 12 || c.toNat = 13 || c.toNat = 133 || c.toNat = 160

/-- Character-list core of Go `strings.TrimSpace`: drop leading and trailing
space characters. -/
def trimChars (cs : List Char) : List Char :=
  ((cs.dropWhile isGoSpace).reverse.dropWhile isGoSpace).reverse

/-- Model of Go `strings.TrimSpace`. -/
def goTrimSpace (s : String) : String :=
  (trimChars s.data).asString

/-- Model of Go `strings.ToLower` (ASCII fragment): Lean core `Char.toLower`
maps exactly the code points 65–90 to their value plus 32, as Go does for
ASCII runes. -/
def goToLower (s : String) : String :=
  (s.data.map Char.toLower).asString

theorem char_toNat_ofNat_le (n : Nat) (h : n ≤ 122) : (Char.ofNat n).toNat = n := by
  have hv : n.isValidChar := Or.inl (by omega)
  rw [Char.ofNat, dif_pos hv]
  simp [Char.ofNatAux, Char.toNat, UInt32.toNat, BitVec.toNat_ofNatLt]

theorem toLower_toNat (c : Char) :
    (Char.toLower c).toNat =
      if 65 ≤ c.toNat ∧ c.toNat ≤ 90 then c.toNat + 32 else c.toNat := by
  unfold Char.toLower
  split
  · next h =>
    rw [if_pos (by omega), char_toNat_ofNat_le _ (by omega)]
  · next h => rw [if_neg (by omega)]

theorem char_eq_of_toNat_eq {a b : Char} (h : a.toNat = b.toNat) : a = b :=
  Char.ext (UInt32.ext h)

theorem toLower_idem (c : Char) : Char.toLower (Char.toLower c) = Char.toLower c := by
  apply char_eq_of_toNat_eq
  have h1 := toLower_toNat c
  have h2 := toLower_toNat (Char.toLower c)
  rw [h2, h1]
  split_ifs <;> omega

theorem isGoSpace_toLower (c : Char) : isGoSpace (Char.toLower c) = isGoSpace c := by
  rw [Bool.eq_iff_iff]
  simp only [isGoSpace, Bool.or_eq_true, decide_eq_true_eq, toLower_toNat c]
  split_ifs with hc <;> omega

theorem goToLower_idem (s : String) : goToLower (goToLower s) = goToLower s := by
  have h : Char.toLower ∘ Char.toLower = Char.toLower := by
    funext c; exact toLower_idem c
  simp only [goToLower, List.asString, List.map_map, h]

theorem trimChars_map_toLower (l : List Char) :
    trimChars (l.map Char.toLower) = (trimChars l).map Char.toLower := by
  have hfun : (isGoSpace ∘ Char.toLower) = isGoSpace := by
    funext c; exact isGoSpace_toLower c
  simp only [trimChars, List.dropWhile_map, hfun, ← List.map_reverse]

theorem trim_lower_comm (s : String) :
    goTrimSpace (goToLower s) = goToLower (goTrimSpace s) := by
  simp only [goTrimSpace, goToLower]
  rw [show ((s.data.map Char.toLower).asString).data = s.data.map Char.toLower from rfl,
      show ((trimChars s.data).asString).data = trimChars s.data from rfl,
      trimChars_map_toLower]

/-! ## models.go: job statuses, jobs and progress events -/

/-- Model of `models.JobStatus` (`models.go`). -/
inductive JobStatus
  | notStarted
  | uploaded
  | queued
  | processing
  | completed
  | failed
deriving DecidableEq, Repr

/-- Model of `models.ExtractionJob` (`models.go`). Timestamps are `Int`
nanosecond counts. -/
structure ExtractionJob where
  id : String
  inputFileName : String
  inputPath : String
  outputPath : String
  outputName : String
  format : String
  quality : String
  status : JobStatus
  progress : Int
  error : String
  transcriptStatus : JobStatus
  transcriptProgress : Int
  transcriptError : String
  transcriptTXTPath : String
  transcriptTXTName : String
  transcriptSRTPath : String
  transcriptSRTName : String
  createdAt : Int
  updatedAt : Int
deriving DecidableEq, Repr

/-- Projection of `models.ProgressEvent` carrying the fields the claims are
about: stage, status, progress, and the derived artifact URLs. -/
structure BroadcastEvent where
  stage : String
  status : JobStatus
  progress : Int
  downloadURL : String
  transcriptTXTURL : String
  transcriptSRTURL : String
deriving DecidableEq, Repr

/-! ## handlers.go: input sanitisation -/

/-- The five formats accepted by the `switch` in `sanitizeFormat`
(`handlers.go` line 679). -/
def supportedFormats : List String := ["mp3", "wav", "aac", "flac", "ogg"]

/-- The four qualities accepted by the `switch` in `sanitizeQuality`
(`handlers.go` line 688). -/
def supportedQualities : List String := ["low", "medium", "high", "original"]

/-- Model of `sanitizeFormat` (`handlers.go` lines 677–684): the `switch` on
`strings.ToLower(strings.TrimSpace(v))` returns `strings.ToLower(v)` on each
of the five listed cases and defaults to `"mp3"`. -/
def sanitizeFormat (v : String) : String :=
  if goToLower (goTrimSpace v) ∈ supportedFormats then goToLower v else "mp3"

/-- Model of `sanitizeQuality` (`handlers.go` lines 686–693). -/
def sanitizeQuality (v : String) : String :=
  if goToLower (goTrimSpace v) ∈ supportedQualities then goToLower v else "medium"

/-- Character-list core of Go `filepath.Base` on a non-empty path (Unix
separator): strip trailing slashes, then keep everything after the last
slash; a path of only slashes yields "/". -/
def baseChars (cs : List Char) : List Char :=
  match cs.reverse.dropWhile (fun c => c.toNat = 47) with
  | [] => [Char.ofNat 47]
  | r => (r.takeWhile (fun c => ¬ c.toNat = 47)).reverse

/-- Model of Go `filepath.Base`: the empty path yields ".". -/
def filepathBase (s : String) : String :=
  if s = "" then "." else (baseChars s.data).asString

/-- The character class kept by the `strings.Map` inside `sanitizeFileName`
(`handlers.go` lines 698–703): ASCII letters, digits, '.' (46), '_' (95),
'-' (45). -/
def allowedFileChar (c : Char) : Bool :=
  (97 ≤ c.toNat && c.toNat ≤ 122) || (65 ≤ c.toNat && c.toNat ≤ 90) ||
  (48 ≤ c.toNat && c.toNat ≤ 57) || c.toNat = 46 || c.toNat = 95 || c.toNat = 45

/-- The character pipeline of `sanitizeFileName` before the final emptiness
check: `filepath.Base(strings.TrimSpace(name))`, then
`strings.ReplaceAll(name, " ", "_")` (a single-character replacement, hence a
map), then the `strings.Map` keeping `allowedFileChar` and replacing
everything else with '_'. -/
def sanitizeFileNameCore (name : String) : List Char :=
  (((filepathBase (goTrimSpace name)).data.map
      (fun c => if c.toNat = 32 then Char.ofNat 95 else c)).map
    (fun c => if allowedFileChar c then c else Char.ofNat 95))

/-- Model of `sanitizeFileName` (`handlers.go` lines 695–708). -/
def sanitizeFileName (name : String) : String :=
  if (sanitizeFileNameCore name).asString = "" then "video.bin"
  else (sanitizeFileNameCore name).asString

/-! ## extractor.go: ffmpeg argument construction -/

/-- Model of `codecAndQualityArgs` (`extractor.go` lines 243–302). The Go
`switch` statements are rendered as if-chains over the normalised format and
quality strings. -/
def codecAndQualityArgs (format quality : String) : List String :=
  let f0 := goToLower (goTrimSpace format)
  let q := goToLower (goTrimSpace quality)
  let f := if f0 = "" then "mp3" else f0
  let args := ["-f", f]
  if f = "mp3" then
    args ++ ["-codec:a", "libmp3lame"] ++
      (if q = "low" then ["-b:a", "96k"]
       else if q = "high" then ["-b:a", "320k"]
       else if q = "original" then ["-q:a", "0"]
       else ["-b:a", "192k"])
  else if f = "wav" then
    args ++ ["-codec:a", "pcm_s16le"]
  else if f = "aac" then
    args ++ ["-codec:a", "aac"] ++
      (if q = "low" then ["-b:a", "96k"]
       else if q = "high" then ["-b:a", "320k"]
       else if q = "original" then ["-b:a", "384k"]
       else ["-b:a", "192k"])
  else if f = "flac" then
    args ++ ["-codec:a", "flac"] ++
      (if q = "high" ∨ q = "original" then ["-compression_level", "12"]
       else ["-compression_level", "8"])
  else if f = "ogg" then
    args ++ ["-codec:a", "libvorbis"] ++
      (if q = "low" then ["-qscale:a", "2"]
       else if q = "high" ∨ q = "original" then ["-qscale:a", "8"]
       else ["-qscale:a", "5"])
  else
    ["-codec:a", "copy"]

/-! ## handlers.go: stage triggers -/

/-- The response of `startExtraction` (`handlers.go` lines 188–225) for a job
found in the registry. -/
inductive ExtractionTriggerResult
  | alreadyProcessing
  | alreadyCompleted (downloadURL : String)
  | started (jobID : String)
deriving DecidableEq, Repr

/-- Model of `startExtraction` (`handlers.go` lines 188–225) restricted to
the addressed job: the `switch` on the current extraction status either
rejects the trigger leaving the job untouched, reports the cached download
URL, or queues the stage and resets the whole transcription record. -/
def startExtraction (job : ExtractionJob) (now : Int) :
    ExtractionTriggerResult × ExtractionJob :=
  match job.status with
  | .processing | .queued => (.alreadyProcessing, job)
  | .completed => (.alreadyCompleted ("/download/" ++ job.id), job)
  | _ =>
    (.started job.id,
      { job with
          status := .queued
          progress := 1
          error := ""
          transcriptStatus := .notStarted
          transcriptProgress := 0
          transcriptError := ""
          transcriptTXTPath := ""
          transcriptTXTName := ""
          transcriptSRTPath := ""
          transcriptSRTName := ""
          updatedAt := now })

/-- The response of `startTranscription` (`handlers.go` lines 286–327) for a
job found in the registry. -/
inductive TranscriptionTriggerResult
  | conflictExtractionNotCompleted
  | alreadyProcessing
  | alreadyCompleted (txtURL srtURL : String)
  | started (jobID : String)
deriving DecidableEq, Repr

/-- Model of `startTranscription` (`handlers.go` lines 286–327): a conflict
if extraction is not completed, then the `switch` on the transcription
status; an accepted trigger queues the transcription stage. -/
def startTranscription (job : ExtractionJob) (now : Int) :
    TranscriptionTriggerResult × ExtractionJob :=
  if job.status ≠ .completed then (.conflictExtractionNotCompleted, job)
  else
    match job.transcriptStatus with
    | .queued | .processing => (.alreadyProcessing, job)
    | .completed =>
      (.alreadyCompleted ("/transcript/" ++ job.id ++ "?format=txt")
        ("/transcript/" ++ job.id ++ "?format=srt"), job)
    | _ =>
      (.started job.id,
        { job with
            transcriptStatus := .queued
            transcriptProgress := 1
            transcriptError := ""
            updatedAt := now })

/-- Whether a transcription trigger response is the accepted one. -/
def isTranscriptionStarted : TranscriptionTriggerResult → Bool
  | .started _ => true
  | _ => false

/-! ## extractor.go: the two process adapters as event streams -/

/-- One line of the ffmpeg `-progress pipe:1` stream, already discriminated
the way the scanner loop in `ExtractAudio` (`extractor.go` lines 89–119)
does: an `out_time_ms=` line whose value parsed (carried as an exact
rational), the `progress=end` marker, or any other line. -/
inductive FFLine
  | outTimeMs (ms : ℚ)
  | progressEnd
  | otherLine
deriving DecidableEq

/-- One callback invocation `cb(percent, status, message)` of
`extractor.ProgressCallback`. -/
structure CBEvent where
  percent : Int
  status : String
  message : String
deriving DecidableEq, Repr

/-- The ratio clamp of `ExtractAudio` (`extractor.go` lines 99–105). -/
def clamp01 (r : ℚ) : ℚ :=
  if r < 0 then 0 else if r > 1 then 1 else r

/-- The scanner loop of `ExtractAudio` (`extractor.go` lines 89–119) as the
list of callback events it emits: an `out_time_ms=` line with a positive
probed duration emits the clamped integer percent; `progress=end` emits 100.
The Go `progress` variable is written and then immediately reported, never
read across iterations, so no accumulator is needed. -/
def extractLoopEvents (duration : ℚ) : List FFLine → List CBEvent
  | [] => []
  | .outTimeMs ms :: ls =>
    (if duration > 0 then
       [⟨⌊clamp01 (ms / 1000000 / duration) * 100⌋, "processing", "extraindo áudio"⟩]
     else []) ++ extractLoopEvents duration ls
  | .progressEnd :: ls =>
    ⟨100, "processing", "finalizando arquivo"⟩ :: extractLoopEvents duration ls
  | .otherLine :: ls => extractLoopEvents duration ls

/-- All callback events of one `ExtractAudio` run (`extractor.go` lines
44–139): the initial `cb(0, ...)` before `cmd.Start()`, the scanner-loop
events, and on a successful `cmd.Wait()` the final `cb(100, "completed", ...)`. -/
def extractAudioEvents (duration : ℚ) (lines : List FFLine) (exitOk : Bool) :
    List CBEvent :=
  ⟨0, "processing", "iniciando extração"⟩ :: extractLoopEvents duration lines ++
    (if exitOk then [⟨100, "completed", "extração concluída"⟩] else [])

/-- One tick of the synthesized transcription progress (`extractor.go` lines
195–201): increment by 7 while below 90. -/
def tickStep (p : Int) : Int :=
  if p < 90 then p + 7 else p

/-- The progress values emitted by `n` ticks of the `TranscribeAudio` ticker
starting from the running value `p` (initially 5). -/
def ticksFrom (p : Int) : Nat → List Int
  | 0 => []
  | n + 1 => tickStep p :: ticksFrom (tickStep p) n

/-- All callback events of one `TranscribeAudio` run (`extractor.go` lines
142–204) that waits through `ticks` ticker firings: the initial
`cb(1, ...)`, one `processing` event per tick, and on successful process exit
the final `cb(100, "completed", ...)`. Error exits emit no callback. -/
def transcribeAudioEvents (ticks : Nat) (exitOk : Bool) : List CBEvent :=
  ⟨1, "processing", "iniciando transcrição"⟩ ::
    (ticksFrom 5 ticks).map (fun p => ⟨p, "processing", "transcrevendo áudio"⟩) ++
    (if exitOk then [⟨100, "completed", "transcrição concluída"⟩] else [])

/-! ## extractor.go: error classification -/

/-- The two terminal states of a Go `context.Context`: explicitly cancelled
(`context.Canceled`) or past its deadline (`context.DeadlineExceeded`). -/
inductive CtxDoneErr
  | canceled
  | deadlineExceeded
deriving DecidableEq, Repr

/-- The errors the two adapters can return from an abnormal process exit. -/
inductive GoError
  | ctxCanceled
  | ctxDeadlineExceeded
  | ffmpegFailedLine (line : String)
  | ffmpegFailedWrapped
  | whisperFailedLine (line : String)
  | whisperFailedWrapped
deriving DecidableEq, Repr

/-- Whether an adapter error is a cancellation-kind result (the `ctx.Err()`
values), as opposed to a tool-reported execution failure. -/
def isCancellationError : GoError → Bool
  | .ctxCanceled | .ctxDeadlineExceeded => true
  | _ => false

/-- The stderr goroutine of `ExtractAudio` (`extractor.go` lines 78–85):
`lastErrLine` holds the last non-empty trimmed stderr line. -/
def lastErrLineChars (lines : List (List Char)) : List Char :=
  lines.foldl (fun acc l => let t := trimChars l; if t ≠ [] then t else acc) []

/-- The `cmd.Wait()` error handling of `ExtractAudio` (`extractor.go` lines
125–133): `ctx.Err()` is returned only when it `errors.Is` `context.Canceled`;
otherwise the last non-empty stderr line (untruncated) or a generic wrap of
the exit error. `ctxErr` is the value of `ctx.Err()` at that moment. -/
def extractWaitError (ctxErr : Option CtxDoneErr) (stderrLines : List (List Char)) :
    GoError :=
  if ctxErr = some .canceled then .ctxCanceled
  else
    let l := lastErrLineChars stderrLines
    if l ≠ [] then .ffmpegFailedLine l.asString else .ffmpegFailedWrapped

/-- The `ctx.Done()` branch of the `TranscribeAudio` select (`extractor.go`
lines 180–182): the child is killed and `ctx.Err()` is returned as is. -/
def transcribeCtxDone : CtxDoneErr → GoError
  | .canceled => .ctxCanceled
  | .deadlineExceeded => .ctxDeadlineExceeded

/-- Model of `strings.Split(v, "\n")` on character lists. -/
def splitLines : List Char → List (List Char)
  | [] => [[]]
  | c :: rest =>
    if c.toNat = 10 then [] :: splitLines rest
    else
      match splitLines rest with
      | [] => [[c]]
      | h :: t => (c :: h) :: t

/-- The downward scan of `compactLogLine` (`extractor.go` lines 206–218):
the last line whose trimmed form is non-empty, scanning from the end. -/
def lastNonEmptyFromEnd : List (List Char) → Option (List Char)
  | [] => none
  | l :: ls =>
    match lastNonEmptyFromEnd ls with
    | some r => some r
    | none => let t := trimChars l; if t = [] then none else some t

/-- Model of `compactLogLine` (`extractor.go` lines 206–218): last non-empty
trimmed line of the input, truncated to 220 characters with an ellipsis
appended (the Go byte-level slice is modelled at character granularity);
"unknown whisper error" when no such line exists. -/
def compactLogLine (v : String) : String :=
  match lastNonEmptyFromEnd (splitLines v.data) with
  | some line =>
    if line.length > 220 then (line.take 220).asString ++ "..."
    else line.asString
  | none => "unknown whisper error"

/-- The non-cancellation error branch of `TranscribeAudio` (`extractor.go`
lines 183–190): with `logOut := strings.TrimSpace(stderr.String())`, a
non-empty `logOut` yields the compacted log line, otherwise a generic wrap
of the exit error. -/
def whisperWaitError (combinedOutput : String) : GoError :=
  let logOut := goTrimSpace combinedOutput
  if logOut ≠ "" then .whisperFailedLine (compactLogLine logOut)
  else .whisperFailedWrapped

/-! ## handlers.go: worker broadcasts -/

/-- The floor applied inside the worker progress callbacks (`handlers.go`
lines 252–254 and 358–360): a percent below 1 is reported as 1. -/
def floorOne (p : Int) : Int :=
  if p < 1 then 1 else p

/-- The `ProgressEvent`s broadcast during one triggered extraction run
(`handlers.go` lines 222 and 227–284): the `queued` event from the trigger,
one `processing` event per adapter callback with the floored percent, and
the terminal event — `completed` at 100 with the download URL on success
(line 274), `failed` at 0 from `failJob` (line 409) otherwise. -/
def extractionRunBroadcasts (jobID : String) (duration : ℚ) (lines : List FFLine)
    (exitOk : Bool) : List BroadcastEvent :=
  ⟨"extraction", .queued, 1, "", "", ""⟩ ::
    (extractAudioEvents duration lines exitOk).map
      (fun e => ⟨"extraction", .processing, floorOne e.percent, "", "", ""⟩) ++
    (if exitOk then
       [⟨"extraction", .completed, 100, "/download/" ++ jobID, "", ""⟩]
     else [⟨"extraction", .failed, 0, "", "", ""⟩])

/-- The `ProgressEvent`s broadcast during one triggered transcription run
(`handlers.go` lines 323 and 329–400): the `queued` event from the trigger,
one `processing` event per adapter callback with the floored percent, and
the terminal event — `completed` at 100 with both transcript URLs on
success (line 390), `failed` at 0 from `failTranscription` (line 420)
otherwise. -/
def transcriptionRunBroadcasts (jobID : String) (ticks : Nat) (exitOk : Bool) :
    List BroadcastEvent :=
  ⟨"transcription", .queued, 1, "", "", ""⟩ ::
    (transcribeAudioEvents ticks exitOk).map
      (fun e => ⟨"transcription", .processing, floorOne e.percent, "", "", ""⟩) ++
    (if exitOk then
       [⟨"transcription", .completed, 100, "",
         "/transcript/" ++ jobID ++ "?format=txt",
         "/transcript/" ++ jobID ++ "?format=srt"⟩]
     else [⟨"transcription", .failed, 0, "", "", ""⟩])

/-- The extraction progress values stored on the job over the same run
(`handlers.go`: the trigger stores 1, each callback stores the floored
percent, success stores 100, failure stores 0). -/
def extractionRunStoredProgress (duration : ℚ) (lines : List FFLine)
    (exitOk : Bool) : List Int :=
  1 :: (extractAudioEvents duration lines exitOk).map (fun e => floorOne e.percent) ++
    (if exitOk then [100] else [0])

/-- The transcription progress values stored on the job over the same run
(`handlers.go`: the trigger stores 1, `runTranscription` stores 1 before
launch, each callback stores the floored percent, success stores 100,
failure stores 0). -/
def transcriptionRunStoredProgress (ticks : Nat) (exitOk : Bool) : List Int :=
  1 :: 1 :: (transcribeAudioEvents ticks exitOk).map (fun e => floorOne e.percent) ++
    (if exitOk then [100] else [0])

/-! ## handlers.go: the reaper -/

/-- The file paths referenced by a job, in the order `cleanup` deletes them
(`handlers.go` lines 657–670); empty paths are skipped. -/
def jobFilePaths (j : ExtractionJob) : List String :=
  (if j.inputPath ≠ "" then [j.inputPath] else []) ++
  (if j.outputPath ≠ "" then [j.outputPath] else []) ++
  (if j.transcriptTXTPath ≠ "" then [j.transcriptTXTPath] else []) ++
  (if j.transcriptSRTPath ≠ "" then [j.transcriptSRTPath] else [])

/-- Model of `cleanup` (`handlers.go` lines 644–675): with
`cutoff := now - ttl`, every job with `updatedAt` strictly before the cutoff
is removed from the registry and its referenced files are deleted; the rest
are kept. Returns the kept jobs and the deleted paths. -/
def cleanup (jobs : List ExtractionJob) (now ttl : Int) :
    List ExtractionJob × List String :=
  let cutoff := now - ttl
  let oldJobs := jobs.filter (fun j => decide (j.updatedAt < cutoff))
  let kept := jobs.filter (fun j => ! decide (j.updatedAt < cutoff))
  (kept, (oldJobs.map jobFilePaths).flatten)

/-! ## Shared helper lemmas -/

theorem codecArgs_supported (f q : String)
    (h : goToLower (goTrimSpace f) ∈ supportedFormats) :
    (codecAndQualityArgs f q).head? = some "-f" ∧
      codecAndQualityArgs f q ≠ ["-codec:a", "copy"] := by
  simp only [supportedFormats, List.mem_cons, List.not_mem_nil, or_false] at h
  simp only [codecAndQualityArgs]
  rcases h with h | h | h | h | h <;> rw [h] <;> simp

theorem allowed_core (name : String) :
    ∀ c ∈ sanitizeFileNameCore name, allowedFileChar c = true := by
  intro c hc
  unfold sanitizeFileNameCore at hc
  rw [List.mem_map] at hc
  obtain ⟨x, _, hx⟩ := hc
  rw [← hx]
  split
  · assumption
  · decide

/-! ## Claim C6 -/

/-- Claim C6: `codecAndQualityArgs` is a pure function — for every pair drawn
from the supported formats and qualities it returns a non-empty argument
list and equal inputs yield equal outputs — and for every format whose
trimmed lowercase form is outside the supported set and non-empty (the empty
form defaults to mp3) it returns the stream-copy passthrough configuration
`["-codec:a", "copy"]`. -/
theorem codec_args_c6 :
    (∀ f ∈ supportedFormats, ∀ q ∈ supportedQualities,
      codecAndQualityArgs f q ≠ []) ∧
    (∀ f q f2 q2 : String, f = f2 → q = q2 →
      codecAndQualityArgs f q = codecAndQualityArgs f2 q2) ∧
    (∀ f q : String, goToLower (goTrimSpace f) ∉ supportedFormats →
      goToLower (goTrimSpace f) ≠ "" →
      codecAndQualityArgs f q = ["-codec:a", "copy"]) := by
  refine ⟨by decide, ?_, ?_⟩
  · intro f q f2 q2 hf hq
    rw [hf, hq]
  · intro f q h1 h2
    simp only [supportedFormats, List.mem_cons, List.not_mem_nil, or_false,
      not_or] at h1
    obtain ⟨hm1, hm2, hm3, hm4, hm5⟩ := h1
    simp only [codecAndQualityArgs]
    rw [if_neg h2, if_neg hm1, if_neg hm2, if_neg hm3, if_neg hm4, if_neg hm5]

theorem codec_args_c6_witness :
    codecAndQualityArgs "mp3" "low" ≠ [] ∧
    codecAndQualityArgs "mp3" "low" = codecAndQualityArgs "mp3" "low" ∧
    codecAndQualityArgs "opus" "high" = ["-codec:a", "copy"] :=
  ⟨codec_args_c6.1 "mp3" (by decide) "low" (by decide),
   codec_args_c6.2.1 "mp3" "low" "mp3" "low" rfl rfl,
   codec_args_c6.2.2 "opus" "high" (by decide) (by decide)⟩

/-! ## Claim C9 -/

/-- Claim C9: for every input string, `sanitizeFileName` returns a non-empty
name containing only ASCII letters, digits, '.', '_' and '-'; in particular
the result contains no path separator and no space, so the stored upload
name cannot escape the uploads directory. (`filepath.Base` is applied first
and every disallowed character is replaced by '_'; the `"video.bin"`
fallback for an empty sanitised name is in the model verbatim, but no input
reaches it because `filepath.Base` never returns an empty string.) -/
theorem sanitize_filename_c9 (name : String) :
    sanitizeFileName name ≠ "" ∧
    (sanitizeFileName name).data.all allowedFileChar = true ∧
    (sanitizeFileName name).data.contains (Char.ofNat 47) = false ∧
    (sanitizeFileName name).data.contains (Char.ofNat 32) = false := by
  have hall : (sanitizeFileName name).data.all allowedFileChar = true := by
    rw [List.all_eq_true]
    unfold sanitizeFileName
    split
    · decide
    · intro c hc
      exact allowed_core name c hc
  refine ⟨?_, hall, ?_, ?_⟩
  · unfold sanitizeFileName
    split
    · decide
    · assumption
  · cases hc : (sanitizeFileName name).data.contains (Char.ofNat 47)
    · rfl
    · exfalso
      rw [List.contains_eq_any_beq] at hc
      rw [List.any_eq_true] at hc
      obtain ⟨c, hm, he⟩ := hc
      rw [beq_iff_eq] at he
      have := (List.all_eq_true.mp hall) c hm
      rw [← he] at this
      exact absurd this (by decide)
  · cases hc : (sanitizeFileName name).data.contains (Char.ofNat 32)
    · rfl
    · exfalso
      rw [List.contains_eq_any_beq] at hc
      rw [List.any_eq_true] at hc
      obtain ⟨c, hm, he⟩ := hc
      rw [beq_iff_eq] at he
      have := (List.all_eq_true.mp hall) c hm
      rw [← he] at this
      exact absurd this (by decide)

/-! ## Claim C10 -/

/-- Claim C10: the trimmed lowercase form of every `sanitizeFormat` result is
one of mp3, wav, aac, flac, ogg, and the trimmed lowercase form of every
`sanitizeQuality` result is one of low, medium, high, original; consequently
every job created through upload has a supported format and
`codecAndQualityArgs` never takes its copy-passthrough branch for such a
job. -/
theorem sanitize_format_quality_c10 (v q : String) :
    goToLower (goTrimSpace (sanitizeFormat v)) ∈ supportedFormats ∧
    goToLower (goTrimSpace (sanitizeQuality q)) ∈ supportedQualities ∧
    (codecAndQualityArgs (sanitizeFormat v) (sanitizeQuality q)).head? =
      some "-f" ∧
    codecAndQualityArgs (sanitizeFormat v) (sanitizeQuality q) ≠
      ["-codec:a", "copy"] := by
  have h1 : goToLower (goTrimSpace (sanitizeFormat v)) ∈ supportedFormats := by
    unfold sanitizeFormat
    split
    · next h => rw [trim_lower_comm, goToLower_idem]; exact h
    · decide
  have h2 : goToLower (goTrimSpace (sanitizeQuality q)) ∈ supportedQualities := by
    unfold sanitizeQuality
    split
    · next h => rw [trim_lower_comm, goToLower_idem]; exact h
    · decide
  obtain ⟨h3, h4⟩ := codecArgs_supported (sanitizeFormat v) (sanitizeQuality q) h1
  exact ⟨h1, h2, h3, h4⟩

/-! ## Claims C1, C2, C8: the trigger handlers -/

/-- A concrete job used to instantiate witnesses. -/
def sampleJob : ExtractionJob where
  id := "j1"
  inputFileName := "v.mp4"
  inputPath := "uploads/j1_v.mp4"
  outputPath := ""
  outputName := ""
  format := "mp3"
  quality := "medium"
  status := .uploaded
  progress := 0
  error := ""
  transcriptStatus := .notStarted
  transcriptProgress := 0
  transcriptError := ""
  transcriptTXTPath := ""
  transcriptTXTName := ""
  transcriptSRTPath := ""
  transcriptSRTName := ""
  createdAt := 0
  updatedAt := 0

/-- Claim C1: for each stage, a trigger while the stage is `queued` or
`processing` is rejected without changing any job state, and a trigger while
the stage is already `completed` performs no work and returns the existing
result (the download URL for extraction; the cached transcript URLs for
transcription — whose handler demands the extraction-completed precondition
first, a condition every reachable job with a completed transcription
satisfies); hence triggering twice from such a state equals triggering
once. -/
theorem trigger_idempotence_c1 (job : ExtractionJob) (t1 t2 : Int) :
    ((job.status = .queued ∨ job.status = .processing) →
      startExtraction job t1 = (.alreadyProcessing, job)) ∧
    (job.status = .completed →
      startExtraction job t1 = (.alreadyCompleted ("/download/" ++ job.id), job)) ∧
    ((job.transcriptStatus = .queued ∨ job.transcriptStatus = .processing) →
      (startTranscription job t1).2 = job ∧
        isTranscriptionStarted (startTranscription job t1).1 = false) ∧
    (job.status = .completed → job.transcriptStatus = .completed →
      startTranscription job t1 =
        (.alreadyCompleted ("/transcript/" ++ job.id ++ "?format=txt")
          ("/transcript/" ++ job.id ++ "?format=srt"), job)) ∧
    ((job.status = .queued ∨ job.status = .processing ∨ job.status = .completed) →
      startExtraction (startExtraction job t1).2 t2 = startExtraction job t1) ∧
    ((job.transcriptStatus = .queued ∨ job.transcriptStatus = .processing ∨
        job.transcriptStatus = .completed) →
      startTranscription (startTranscription job t1).2 t2 =
        startTranscription job t1) := by
  refine ⟨?_, ?_, ?_, ?_, ?_, ?_⟩
  · intro h
    rcases h with h | h <;> simp [startExtraction, h]
  · intro h
    simp [startExtraction, h]
  · intro h
    by_cases hs : job.status = JobStatus.completed
    · rcases h with h | h <;> simp [startTranscription, isTranscriptionStarted, hs, h]
    · simp [startTranscription, isTranscriptionStarted, hs]
  · intro h1 h2
    simp [startTranscription, h1, h2]
  · intro h
    rcases h with h | h | h <;> simp [startExtraction, h]
  · intro h
    by_cases hs : job.status = JobStatus.completed <;>
      rcases h with h | h | h <;> simp [startTranscription, hs, h]

theorem trigger_idempotence_c1_witness :
    startExtraction { sampleJob with status := .queued } 3 =
      (.alreadyProcessing, { sampleJob with status := .queued }) ∧
    startExtraction { sampleJob with status := .completed } 3 =
      (.alreadyCompleted
        ("/download/" ++ ({ sampleJob with status := .completed } : ExtractionJob).id),
        { sampleJob with status := .completed }) ∧
    ((startTranscription
        { sampleJob with status := .completed, transcriptStatus := .queued } 3).2 =
      { sampleJob with status := .completed, transcriptStatus := .queued } ∧
      isTranscriptionStarted (startTranscription
        { sampleJob with status := .completed, transcriptStatus := .queued } 3).1 =
        false) ∧
    startTranscription
        { sampleJob with status := .completed, transcriptStatus := .completed } 3 =
      (.alreadyCompleted
        ("/transcript/" ++
          ({ sampleJob with status := .completed, transcriptStatus := .completed } : ExtractionJob).id ++ "?format=txt")
        ("/transcript/" ++
          ({ sampleJob with status := .completed, transcriptStatus := .completed } : ExtractionJob).id ++ "?format=srt"),
        { sampleJob with status := .completed, transcriptStatus := .completed }) ∧
    startExtraction
        (startExtraction { sampleJob with status := .queued } 3).2 4 =
      startExtraction { sampleJob with status := .queued } 3 ∧
    startTranscription
        (startTranscription
          { sampleJob with status := .completed, transcriptStatus := .completed } 3).2 4 =
      startTranscription
        { sampleJob with status := .completed, transcriptStatus := .completed } 3 :=
  ⟨(trigger_idempotence_c1 _ 3 4).1 (Or.inl rfl),
   (trigger_idempotence_c1 _ 3 4).2.1 rfl,
   (trigger_idempotence_c1 _ 3 4).2.2.1 (Or.inl rfl),
   (trigger_idempotence_c1 _ 3 4).2.2.2.1 rfl rfl,
   (trigger_idempotence_c1 _ 3 4).2.2.2.2.1 (Or.inl rfl),
   (trigger_idempotence_c1 _ 3 4).2.2.2.2.2 (Or.inr (Or.inr rfl))⟩

/-- Claim C2: for every job whose extraction status is not `completed`, a
transcription trigger is rejected with a conflict result and leaves the
entire job record unchanged. -/
theorem transcription_conflict_c2 (job : ExtractionJob) (t : Int)
    (h : job.status ≠ .completed) :
    startTranscription job t = (.conflictExtractionNotCompleted, job) := by
  simp [startTranscription, h]

theorem transcription_conflict_c2_witness :
    startTranscription sampleJob 3 = (.conflictExtractionNotCompleted, sampleJob) :=
  transcription_conflict_c2 sampleJob 3 (by decide)

/-- Claim C8: an accepted extraction trigger queues the extraction stage and
also resets the entire transcription stage record — status `not_started`,
progress 0, error empty, all four transcript artifact fields cleared — while
id, input path/name, output path/name, format, quality and created_at are
unchanged. -/
theorem extraction_trigger_resets_c8 (job : ExtractionJob) (t : Int)
    (h1 : job.status ≠ .queued) (h2 : job.status ≠ .processing)
    (h3 : job.status ≠ .completed) :
    (startExtraction job t).1 = .started job.id ∧
    (startExtraction job t).2.transcriptStatus = .notStarted ∧
    (startExtraction job t).2.transcriptProgress = 0 ∧
    (startExtraction job t).2.transcriptError = "" ∧
    (startExtraction job t).2.transcriptTXTPath = "" ∧
    (startExtraction job t).2.transcriptTXTName = "" ∧
    (startExtraction job t).2.transcriptSRTPath = "" ∧
    (startExtraction job t).2.transcriptSRTName = "" ∧
    (startExtraction job t).2.status = .queued ∧
    (startExtraction job t).2.id = job.id ∧
    (startExtraction job t).2.inputFileName = job.inputFileName ∧
    (startExtraction job t).2.inputPath = job.inputPath ∧
    (startExtraction job t).2.outputPath = job.outputPath ∧
    (startExtraction job t).2.outputName = job.outputName ∧
    (startExtraction job t).2.format = job.format ∧
    (startExtraction job t).2.quality = job.quality ∧
    (startExtraction job t).2.createdAt = job.createdAt := by
  cases hs : job.status <;> simp_all [startExtraction]

theorem extraction_trigger_resets_c8_witness :
    (startExtraction sampleJob 3).1 = .started sampleJob.id ∧
    (startExtraction sampleJob 3).2.transcriptStatus = .notStarted ∧
    (startExtraction sampleJob 3).2.transcriptProgress = 0 ∧
    (startExtraction sampleJob 3).2.transcriptError = "" ∧
    (startExtraction sampleJob 3).2.transcriptTXTPath = "" ∧
    (startExtraction sampleJob 3).2.transcriptTXTName = "" ∧
    (startExtraction sampleJob 3).2.transcriptSRTPath = "" ∧
    (startExtraction sampleJob 3).2.transcriptSRTName = "" ∧
    (startExtraction sampleJob 3).2.status = .queued ∧
    (startExtraction sampleJob 3).2.id = sampleJob.id ∧
    (startExtraction sampleJob 3).2.inputFileName = sampleJob.inputFileName ∧
    (startExtraction sampleJob 3).2.inputPath = sampleJob.inputPath ∧
    (startExtraction sampleJob 3).2.outputPath = sampleJob.outputPath ∧
    (startExtraction sampleJob 3).2.outputName = sampleJob.outputName ∧
    (startExtraction sampleJob 3).2.format = sampleJob.format ∧
    (startExtraction sampleJob 3).2.quality = sampleJob.quality ∧
    (startExtraction sampleJob 3).2.createdAt = sampleJob.createdAt :=
  extraction_trigger_resets_c8 sampleJob 3 (by decide) (by decide) (by decide)

/-! ## Claim C3: the reaper sweep -/

/-- Counterexample to claim C3 as stated: a job whose age `now - updated_at`
equals the TTL exactly (`now = 20`, `ttl = 5`, `updated_at = 15`, so
`now - updated_at >= ttl`) is NOT removed by the sweep — `cleanup` keeps it
and deletes none of its files, because the Go code removes only jobs with
`updatedAt.Before(now - ttl)`, a strict comparison. -/
theorem reaper_boundary_counterexample_c3 :
    (20 : Int) - ({ sampleJob with updatedAt := 15 } : ExtractionJob).updatedAt ≥ 5 ∧
    (cleanup [{ sampleJob with updatedAt := 15 }] 20 5).1 =
      [{ sampleJob with updatedAt := 15 }] ∧
    (cleanup [{ sampleJob with updatedAt := 15 }] 20 5).2 = [] := by
  decide

/-- Claim C3 (amended: the age comparison is strict): one `cleanup` sweep at
time `now` with time-to-live `ttl` removes from the registry exactly those
jobs with `now - updated_at > ttl` (a job exactly `ttl` old is kept),
schedules deletion of exactly the non-empty file paths referenced by the
removed jobs (input path, output path, transcript TXT path, transcript SRT
path), and keeps every job with `now - updated_at ≤ ttl`. -/
theorem reaper_strict_ttl_c3 (jobs : List ExtractionJob) (now ttl : Int) :
    (∀ j, j ∈ (cleanup jobs now ttl).1 ↔ j ∈ jobs ∧ now - j.updatedAt ≤ ttl) ∧
    (∀ p, p ∈ (cleanup jobs now ttl).2 ↔
      ∃ j, j ∈ jobs ∧ now - j.updatedAt > ttl ∧ p ∈ jobFilePaths j) ∧
    (∀ j, j ∈ jobs → now - j.updatedAt > ttl → j ∉ (cleanup jobs now ttl).1) ∧
    (∀ j p, p ∈ jobFilePaths j ↔
      (p ≠ "" ∧ (p = j.inputPath ∨ p = j.outputPath ∨
        p = j.transcriptTXTPath ∨ p = j.transcriptSRTPath))) := by
  have hkept : ∀ j, j ∈ (cleanup jobs now ttl).1 ↔
      j ∈ jobs ∧ now - j.updatedAt ≤ ttl := by
    intro j
    simp only [cleanup, List.mem_filter, Bool.not_eq_eq_eq_not, Bool.not_true,
      decide_eq_false_iff_not, not_lt]
    constructor
    · rintro ⟨hj, hle⟩; exact ⟨hj, by omega⟩
    · rintro ⟨hj, hle⟩; exact ⟨hj, by omega⟩
  refine ⟨hkept, ?_, ?_, ?_⟩
  · intro p
    simp only [cleanup, List.mem_flatten, List.mem_map, List.mem_filter,
      decide_eq_true_eq]
    constructor
    · rintro ⟨l, ⟨j, ⟨hj, hlt⟩, rfl⟩, hp⟩
      exact ⟨j, hj, by omega, hp⟩
    · rintro ⟨j, hj, hgt, hp⟩
      exact ⟨jobFilePaths j, ⟨j, ⟨hj, by omega⟩, rfl⟩, hp⟩
  · intro j hj hgt hk
    have := (hkept j).mp hk
    omega
  · intro j p
    simp only [jobFilePaths, List.mem_append]
    split_ifs <;> aesop

theorem reaper_strict_ttl_c3_witness :
    ({ sampleJob with updatedAt := 0 } : ExtractionJob) ∉
      (cleanup [{ sampleJob with updatedAt := 0 }] 20 5).1 ∧
    "uploads/j1_v.mp4" ∈ (cleanup [{ sampleJob with updatedAt := 0 }] 20 5).2 :=
  ⟨(reaper_strict_ttl_c3 [{ sampleJob with updatedAt := 0 }] 20 5).2.2.1 _
      (by decide) (by decide),
   ((reaper_strict_ttl_c3 [{ sampleJob with updatedAt := 0 }] 20 5).2.1
      "uploads/j1_v.mp4").mpr
     ⟨{ sampleJob with updatedAt := 0 }, by decide, by decide, by decide⟩⟩

/-! ## Claim C4: progress bounds -/

theorem clamp01_bounds (r : ℚ) : 0 ≤ clamp01 r ∧ clamp01 r ≤ 1 := by
  unfold clamp01
  split_ifs <;> constructor <;> linarith

theorem extract_percent_bounds (r : ℚ) :
    0 ≤ ⌊clamp01 r * 100⌋ ∧ ⌊clamp01 r * 100⌋ ≤ 100 := by
  obtain ⟨h0, h1⟩ := clamp01_bounds r
  constructor
  · exact Int.floor_nonneg.mpr (by nlinarith)
  · calc ⌊clamp01 r * 100⌋ ≤ ⌊(100 : ℚ)⌋ := Int.floor_le_floor (by nlinarith)
      _ = 100 := by norm_num

theorem extractLoop_bounds (duration : ℚ) (lines : List FFLine) :
    ∀ e ∈ extractLoopEvents duration lines, 0 ≤ e.percent ∧ e.percent ≤ 100 := by
  induction lines with
  | nil => simp [extractLoopEvents]
  | cons l ls ih =>
    cases l with
    | outTimeMs ms =>
      intro e he
      simp only [extractLoopEvents, List.mem_append] at he
      rcases he with he | he
      · split_ifs at he with hd
        · simp only [List.mem_singleton] at he
          rw [he]
          exact extract_percent_bounds _
        · simp at he
      · exact ih e he
    | progressEnd =>
      intro e he
      simp only [extractLoopEvents, List.mem_cons] at he
      rcases he with he | he
      · rw [he]; constructor <;> norm_num
      · exact ih e he
    | otherLine =>
      intro e he
      simp only [extractLoopEvents] at he
      exact ih e he

theorem extractAudioEvents_bounds (duration : ℚ) (lines : List FFLine)
    (exitOk : Bool) :
    ∀ e ∈ extractAudioEvents duration lines exitOk,
      0 ≤ e.percent ∧ e.percent ≤ 100 := by
  intro e he
  cases exitOk <;> simp [extractAudioEvents] at he
  · rcases he with he | he
    · rw [he]; constructor <;> norm_num
    · exact extractLoop_bounds duration lines e he
  · rcases he with he | he | he
    · rw [he]; constructor <;> norm_num
    · exact extractLoop_bounds duration lines e he
    · rw [he]; constructor <;> norm_num

theorem ticksFrom_bounds (p : Int) (n : Nat) (h5 : 5 ≤ p) (h96 : p ≤ 96) :
    ∀ q ∈ ticksFrom p n, 5 ≤ q ∧ q ≤ 96 := by
  induction n generalizing p with
  | zero => simp [ticksFrom]
  | succ m ih =>
    intro q hq
    have hstep : 5 ≤ tickStep p ∧ tickStep p ≤ 96 := by
      unfold tickStep; split_ifs <;> omega
    simp only [ticksFrom, List.mem_cons] at hq
    rcases hq with hq | hq
    · rw [hq]; exact hstep
    · exact ih (tickStep p) hstep.1 hstep.2 q hq

theorem transcribeAudioEvents_bounds (ticks : Nat) (exitOk : Bool) :
    ∀ e ∈ transcribeAudioEvents ticks exitOk,
      0 ≤ e.percent ∧ e.percent ≤ 100 := by
  intro e he
  cases exitOk <;> simp [transcribeAudioEvents] at he
  · rcases he with he | ⟨q, hq, he⟩
    · rw [he]; constructor <;> norm_num
    · have := ticksFrom_bounds 5 ticks (by norm_num) (by norm_num) q hq
      rw [← he]
      dsimp only
      constructor <;> omega
  · rcases he with he | ⟨q, hq, he⟩ | he
    · rw [he]; constructor <;> norm_num
    · have := ticksFrom_bounds 5 ticks (by norm_num) (by norm_num) q hq
      rw [← he]
      dsimp only
      constructor <;> omega
    · rw [he]; constructor <;> norm_num

theorem floorOne_bounds (p : Int) (h : p ≤ 100) :
    1 ≤ floorOne p ∧ floorOne p ≤ 100 := by
  unfold floorOne
  split_ifs <;> omega

theorem getLast_append_single {α : Type} (l : List α) (y : α) :
    (l ++ [y]).getLast? = some y := by
  induction l with
  | nil => rfl
  | cons a as ih =>
    cases as with
    | nil => rfl
    | cons b bs =>
      rw [List.cons_append, List.cons_append, List.getLast?_cons_cons,
        ← List.cons_append]
      exact ih

/-- Claim C4: every progress value broadcast or stored during an extraction
or transcription run lies in [0,100] — the extraction adapter clamps the
elapsed/total ratio to [0,1] before taking the integer percent, the
transcription ticker caps synthesized progress at 96 (below 100), the worker
callbacks floor the percent at 1 — and for either stage the final event of a
successful run has status `completed` and progress exactly 100 (with the
stage's artifact URLs attached). -/
theorem progress_bounds_c4 (jobID : String) (duration : ℚ) (lines : List FFLine)
    (exitOk : Bool) (ticks : Nat) :
    (∀ e ∈ extractionRunBroadcasts jobID duration lines exitOk,
      0 ≤ e.progress ∧ e.progress ≤ 100) ∧
    (∀ e ∈ transcriptionRunBroadcasts jobID ticks exitOk,
      0 ≤ e.progress ∧ e.progress ≤ 100) ∧
    (∀ p ∈ extractionRunStoredProgress duration lines exitOk,
      0 ≤ p ∧ p ≤ 100) ∧
    (∀ p ∈ transcriptionRunStoredProgress ticks exitOk, 0 ≤ p ∧ p ≤ 100) ∧
    (∀ e ∈ extractAudioEvents duration lines exitOk,
      0 ≤ e.percent ∧ e.percent ≤ 100) ∧
    (∀ q ∈ ticksFrom 5 ticks, q < 100) ∧
    (∀ p : Int, 1 ≤ floorOne p) ∧
    (extractionRunBroadcasts jobID duration lines true).getLast? =
      some ⟨"extraction", .completed, 100, "/download/" ++ jobID, "", ""⟩ ∧
    (transcriptionRunBroadcasts jobID ticks true).getLast? =
      some ⟨"transcription", .completed, 100, "",
        "/transcript/" ++ jobID ++ "?format=txt",
        "/transcript/" ++ jobID ++ "?format=srt"⟩ := by
  refine ⟨?_, ?_, ?_, ?_, extractAudioEvents_bounds duration lines exitOk,
    ?_, ?_, ?_, ?_⟩
  · intro e he
    cases exitOk <;> simp [extractionRunBroadcasts] at he <;>
      rcases he with he | ⟨ev, hev, he⟩ | he
    all_goals first
      | (rw [he]; dsimp only; constructor <;> norm_num)
      | (rw [← he]; dsimp only
         have hb := extractAudioEvents_bounds duration lines _ ev hev
         have hf := floorOne_bounds ev.percent hb.2
         constructor <;> omega)
  · intro e he
    cases exitOk <;> simp [transcriptionRunBroadcasts] at he <;>
      rcases he with he | ⟨ev, hev, he⟩ | he
    all_goals first
      | (rw [he]; dsimp only; constructor <;> norm_num)
      | (rw [← he]; dsimp only
         have hb := transcribeAudioEvents_bounds ticks _ ev hev
         have hf := floorOne_bounds ev.percent hb.2
         constructor <;> omega)
  · intro p hp
    cases exitOk <;> simp [extractionRunStoredProgress] at hp <;>
      rcases hp with hp | ⟨ev, hev, hp⟩ | hp
    all_goals first
      | (rw [hp]; constructor <;> norm_num)
      | (rw [← hp]
         have hb := extractAudioEvents_bounds duration lines _ ev hev
         have hf := floorOne_bounds ev.percent hb.2
         constructor <;> omega)
  · intro p hp
    cases exitOk <;> simp [transcriptionRunStoredProgress] at hp <;>
      rcases hp with hp | ⟨ev, hev, hp⟩ | hp
    all_goals first
      | (rw [hp]; constructor <;> norm_num)
      | (rw [← hp]
         have hb := transcribeAudioEvents_bounds ticks _ ev hev
         have hf := floorOne_bounds ev.percent hb.2
         constructor <;> omega)
  · intro q hq
    have := ticksFrom_bounds 5 ticks (by norm_num) (by norm_num) q hq
    omega
  · intro p
    unfold floorOne
    split_ifs <;> omega
  · have h : extractionRunBroadcasts jobID duration lines true =
        (⟨"extraction", .queued, 1, "", "", ""⟩ : BroadcastEvent) ::
          ((extractAudioEvents duration lines true).map
            (fun e => ⟨"extraction", .processing, floorOne e.percent, "", "", ""⟩) ++
            [⟨"extraction", .completed, 100, "/download/" ++ jobID, "", ""⟩]) := by
      simp [extractionRunBroadcasts]
    rw [h, ← List.cons_append, getLast_append_single]
  · have h : transcriptionRunBroadcasts jobID ticks true =
        (⟨"transcription", .queued, 1, "", "", ""⟩ : BroadcastEvent) ::
          ((transcribeAudioEvents ticks true).map
            (fun e => ⟨"transcription", .processing, floorOne e.percent, "", "", ""⟩) ++
            [⟨"transcription", .completed, 100, "",
              "/transcript/" ++ jobID ++ "?format=txt",
              "/transcript/" ++ jobID ++ "?format=srt"⟩]) := by
      simp [transcriptionRunBroadcasts]
    rw [h, ← List.cons_append, getLast_append_single]

theorem progress_bounds_c4_witness :
    (0 ≤ (⟨"extraction", JobStatus.queued, 1, "", "", ""⟩ : BroadcastEvent).progress ∧
      (⟨"extraction", JobStatus.queued, 1, "", "", ""⟩ : BroadcastEvent).progress ≤ 100) ∧
    (12 : Int) < 100 ∧
    (1 : Int) ≤ floorOne (-5) :=
  ⟨(progress_bounds_c4 "j1" 0 [FFLine.progressEnd] true 1).1 _ (by decide),
   (progress_bounds_c4 "j1" 0 [FFLine.progressEnd] true 1).2.2.2.2.2.1 12 (by decide),
   (progress_bounds_c4 "j1" 0 [FFLine.progressEnd] true 1).2.2.2.2.2.2.1 (-5)⟩

/-! ## Claim C5: deadline expiry vs execution failure -/

/-- Claim C5 is refuted by the extraction adapter: when the execution
context has passed its deadline (`ctx.Err() = context.DeadlineExceeded`) and
the killed ffmpeg process exits non-zero having written a stderr line, the
`errors.Is(ctx.Err(), context.Canceled)` test in `ExtractAudio` is false, so
the run is reported with the ffmpeg execution-failure message instead of a
cancellation-kind result. The transcription adapter, by contrast, returns
`ctx.Err()` itself from its `ctx.Done()` branch, which IS
cancellation-kind — and a failed extraction run still never produces a
download URL, as the claim demands. -/
theorem deadline_misclassified_c5 :
    extractWaitError (some .deadlineExceeded) ["Conversion failed!".data] =
      .ffmpegFailedLine "Conversion failed!" ∧
    isCancellationError
      (extractWaitError (some .deadlineExceeded) ["Conversion failed!".data]) =
      false ∧
    isCancellationError (extractWaitError (some .canceled) ["Conversion failed!".data]) =
      true ∧
    isCancellationError (transcribeCtxDone .deadlineExceeded) = true ∧
    (extractionRunBroadcasts "j1" 0 [FFLine.otherLine] false).all
      (fun e => e.downloadURL == "") = true := by
  decide

/-! ## Claim C7: diagnostic snippets on abnormal exit -/

set_option maxRecDepth 4000 in
/-- Counterexample to claim C7 as stated: on a 230-character last stderr
line, the extraction adapter's error carries the whole line untruncated —
longer than the 220-character bound (plus ellipsis) that `compactLogLine`
applies in the transcription variant, and different from the truncated form
— so the two variants do not both truncate the diagnostic snippet. -/
theorem truncation_counterexample_c7 :
    extractWaitError none [List.replicate 230 (Char.ofNat 120)] =
      .ffmpegFailedLine (List.replicate 230 (Char.ofNat 120)).asString ∧
    ((List.replicate 230 (Char.ofNat 120)).asString).length = 230 ∧
    compactLogLine (List.replicate 230 (Char.ofNat 120)).asString =
      (List.replicate 220 (Char.ofNat 120)).asString ++ "..." ∧
    (compactLogLine (List.replicate 230 (Char.ofNat 120)).asString).length = 223 ∧
    extractWaitError none [List.replicate 230 (Char.ofNat 120)] ≠
      .ffmpegFailedLine
        (compactLogLine (List.replicate 230 (Char.ofNat 120)).asString) := by
  decide

theorem lastErr_fold_getD (acc : List Char) (ls : List (List Char)) :
    ls.foldl (fun acc l => let t := trimChars l; if t ≠ [] then t else acc) acc =
      (lastNonEmptyFromEnd ls).getD acc := by
  induction ls generalizing acc with
  | nil => rfl
  | cons l ls ih =>
    simp only [List.foldl_cons, lastNonEmptyFromEnd]
    rw [ih]
    cases h : lastNonEmptyFromEnd ls with
    | some r => rfl
    | none =>
      simp only [Option.getD]
      split_ifs with h1 h2 <;> first | rfl | (exfalso; exact h1 h2)

theorem lastErrLineChars_getD (ls : List (List Char)) :
    lastErrLineChars ls = (lastNonEmptyFromEnd ls).getD [] :=
  lastErr_fold_getD [] ls

theorem compactLogLine_length (v : String) : (compactLogLine v).length ≤ 223 := by
  unfold compactLogLine
  cases h : lastNonEmptyFromEnd (splitLines v.data) with
  | none => decide
  | some line =>
    dsimp only
    split_ifs with hl
    · have h1 : ((line.take 220).asString).length = (line.take 220).length := rfl
      have h2 : (line.take 220).length ≤ 220 := by
        rw [List.length_take]; omega
      have h3 : ("..." : String).length = 3 := by decide
      rw [String.length_append, h1, h3]
      omega
    · have h1 : (line.asString).length = line.length := rfl
      rw [h1]
      omega

/-- Claim C7 (amended: only the transcription variant truncates): on an
abnormal, non-cancelled process exit, the extraction adapter's error carries
the last non-empty trimmed stderr line untruncated, and the transcription
adapter's error carries the last non-empty trimmed line of its combined
output truncated to 220 characters plus an ellipsis (so its snippet never
exceeds 223 characters); in both variants, when no non-empty diagnostic line
exists, a generic execution-failure message wrapping the exit error is
returned instead. The final conjunct identifies the fold used by the ffmpeg
stderr goroutine with the backwards scan used by `compactLogLine`: both
select the last line whose trimmed form is non-empty. -/
theorem diagnostic_line_errors_c7 (stderrLines : List (List Char)) (out : String) :
    (lastErrLineChars stderrLines ≠ [] →
      extractWaitError none stderrLines =
        .ffmpegFailedLine (lastErrLineChars stderrLines).asString) ∧
    (lastErrLineChars stderrLines = [] →
      extractWaitError none stderrLines = .ffmpegFailedWrapped) ∧
    (goTrimSpace out ≠ "" →
      whisperWaitError out = .whisperFailedLine (compactLogLine (goTrimSpace out)) ∧
        (compactLogLine (goTrimSpace out)).length ≤ 223) ∧
    (goTrimSpace out = "" → whisperWaitError out = .whisperFailedWrapped) ∧
    lastErrLineChars stderrLines = (lastNonEmptyFromEnd stderrLines).getD [] := by
  refine ⟨?_, ?_, ?_, ?_, lastErrLineChars_getD stderrLines⟩
  · intro h
    simp [extractWaitError, h]
  · intro h
    simp [extractWaitError, h]
  · intro h
    unfold whisperWaitError
    rw [if_pos h]
    exact ⟨rfl, compactLogLine_length _⟩
  · intro h
    unfold whisperWaitError
    simp [h]

theorem diagnostic_line_errors_c7_witness :
    extractWaitError none ["boom".data] =
      .ffmpegFailedLine (lastErrLineChars ["boom".data]).asString ∧
    (whisperWaitError "werr" =
      .whisperFailedLine (compactLogLine (goTrimSpace "werr")) ∧
      (compactLogLine (goTrimSpace "werr")).length ≤ 223) ∧
    extractWaitError none [[]] = .ffmpegFailedWrapped :=
  ⟨(diagnostic_line_errors_c7 ["boom".data] "werr").1 (by decide),
   (diagnostic_line_errors_c7 ["boom".data] "werr").2.2.1 (by decide),
   (diagnostic_line_errors_c7 [[]] "werr").2.1 (by decide)⟩

theorem sanitize_filename_c9_witness :
    sanitizeFileName "dir/my video.mp4" ≠ "" ∧
    (sanitizeFileName "dir/my video.mp4").data.all allowedFileChar = true ∧
    (sanitizeFileName "dir/my video.mp4").data.contains (Char.ofNat 47) = false ∧
    (sanitizeFileName "dir/my video.mp4").data.contains (Char.ofNat 32) = false :=
  sanitize_filename_c9 "dir/my video.mp4"

theorem sanitize_format_quality_c10_witness :
    goToLower (goTrimSpace (sanitizeFormat " MP3 ")) ∈ supportedFormats ∧
    goToLower (goTrimSpace (sanitizeQuality "HIGH")) ∈ supportedQualities ∧
    (codecAndQualityArgs (sanitizeFormat " MP3 ") (sanitizeQuality "HIGH")).head? =
      some "-f" ∧
    codecAndQualityArgs (sanitizeFormat " MP3 ") (sanitizeQuality "HIGH") ≠
      ["-codec:a", "copy"] :=
  sanitize_format_quality_c10 " MP3 " "HIGH"
